import Mathlib

/-!
# Verification of the position-lifecycle manager (`src/main.py`)

Shallow embedding of the trading bot's numeric engine (quantizer, ATR),
its background trade-manager loop and the webhook decision flow.

Python `Decimal` values are modelled as exact rationals (`ℚ`); the source's
`ROUND_DOWN` mode (round towards zero) is modelled by `ratTrunc`.
Gateway (exchange REST) responses are passed in as explicit arguments, and
gateway side effects are collected as a list of `GatewayCall` values.
-/

/-- Truncation towards zero on `ℚ`, the meaning of Python `Decimal.quantize`
with `rounding=ROUND_DOWN`. -/
def ratTrunc (q : ℚ) : ℤ :=
  if q < 0 then -⌊-q⌋ else ⌊q⌋

/-- `round_down_to_step` (main.py, lines 127-133):
`if step <= 0: return value; return (value/step).quantize(1, ROUND_DOWN) * step`. -/
def round_down_to_step (value step : ℚ) : ℚ :=
  if step ≤ 0 then value
  else (ratTrunc (value / step) : ℚ) * step

/-- A kline bar; the source indexes Bybit rows `[startTime, open, high, low,
close, volume, turnover]` only at positions 2 (high), 3 (low) and 4 (close). -/
structure Candle where
  high : ℚ
  low : ℚ
  close : ℚ
deriving DecidableEq, Repr

/-- Per-bar true ranges of a chronological candle list: for each adjacent pair
(prev, cur d), `max(high-low, |high-prevClose|, |low-prevClose|)`
(main.py, lines 184-190). -/
def trueRanges : List Candle → List ℚ
  | [] => []
  | [_] => []
  | a :: b :: rest =>
      max (b.high - b.low) (max |b.high - a.close| |b.low - a.close|) ::
        trueRanges (b :: rest)

/-- `calc_atr_from_klines` (main.py, lines 170-198).  The input list is
reverse-chronological (as returned by the gateway) and is reversed first.
Despite the name, the smoothing used is a plain SMA over the last
`length` true ranges. -/
def calc_atr_from_klines (klines : List Candle) (length : ℕ) : ℚ :=
  if klines.length < length + 2 then 0
  else
    let k := klines.reverse
    let trs := trueRanges k
    if trs.length < length then 0
    else ((trs.drop (trs.length - length)).sum) / (length : ℚ)

/-- Order/position direction, Bybit's `"Buy"` / `"Sell"`. -/
inductive Side
  | Buy
  | Sell
deriving DecidableEq, Repr

/-- The opposite side, used when sending reduce-only orders
(`place_reduce_only_tp1`, `close_position_market`). -/
def close_side : Side → Side
  | Side.Buy => Side.Sell
  | Side.Sell => Side.Buy

/-- The environment-derived configuration constants consumed by the
manager loop and the webhook flow (main.py, lines 34-61). -/
structure Config where
  COST_FILTER_ENABLED : Bool
  BYBIT_FEE_PCT : ℚ
  MIN_EDGE_PCT : ℚ
  BAD_ENTRY_FILTER_ENABLED : Bool
  MAX_SPREAD_PCT : ℚ
  MAX_BAR_RANGE_ATR : ℚ
  TP1_ENABLED : Bool
  TP1_PCT : ℚ
  TP1_QTY_PCT : ℚ
  BE_ENABLED : Bool
  BE_ARM_AFTER_TP1 : Bool
  BE_OFFSET_PCT : ℚ
  ATR_TRAIL_ENABLED : Bool
  ATR_LEN : ℕ
  ATR_MULT : ℚ
  ATR_TRAIL_START_PCT : ℚ
  ATR_TRAIL_TIMER_BARS : ℕ
  REVERSE_ENABLED : Bool
  REVERSE_ONLY_IF_NOT_IN_LOSS : Bool
  REVERSE_MAX_LOSS_PCT : ℚ
deriving DecidableEq, Repr

/-- The per-symbol in-memory trade state `_trade_state[symbol]`
(registered at main.py, lines 728-738; mutated by the manager loop).
`tp1_done_ts` is written on fill detection and never read. -/
structure TradeState where
  active : Bool
  entry_ts : ℕ
  entry_price : ℚ
  side : Side
  initial_qty : ℚ
  tp1_placed : Bool
  tp1_done : Bool
  tp1_done_ts : ℕ
  be_done : Bool
  last_sl : ℚ
deriving DecidableEq, Repr

/-- The live position snapshot built by `get_position_info`
(main.py, lines 241-267); `pnl_pct = unrealisedPnl / positionValue * 100`
is computed there from gateway fields and only it is consumed downstream. -/
structure PosInfo where
  side : Side
  size : ℚ
  entry : ℚ
  mark : ℚ
  pnl_pct : ℚ
deriving DecidableEq, Repr

/-- An exchange REST side effect emitted by the program.  `cancelAllOrders`
is the gateway's order-cancellation operation; it has a constructor here so
that its absence from a trace is expressible, the source never invokes it. -/
inductive GatewayCall
  | setLeverage (lev : ℕ)
  | placeEntry (side : Side) (qty tp sl : ℚ)
  | placeTP1 (side : Side) (qty price : ℚ)
  | closeMarket (side : Side) (qty : ℚ)
  | setSL (stopLoss : ℚ)
  | cancelAllOrders
deriving DecidableEq, Repr

/-- TP1 fill detection (main.py, lines 458-469): if TP1 is enabled, was
placed and not yet marked done, and the observed size dropped to at most
`initial_qty * (1 - TP1_QTY_PCT * 0.8)`, mark it done. -/
def tp1_detect (cfg : Config) (st : TradeState) (pos : PosInfo) (now : ℕ) :
    TradeState :=
  if cfg.TP1_ENABLED && st.tp1_placed && !st.tp1_done then
    let target_remain := st.initial_qty * (1 - cfg.TP1_QTY_PCT * (8/10))
    if pos.size ≤ target_remain then
      { st with tp1_done := true, tp1_done_ts := now }
    else st
  else st

/-- The breakeven stop price the code computes (main.py, lines 474-479):
`entry * (1 ± BE_OFFSET_PCT/100)` rounded down to tick; no fee term. -/
def be_price (cfg : Config) (pos : PosInfo) (tick_size : ℚ) : ℚ :=
  let offset := cfg.BE_OFFSET_PCT / 100
  round_down_to_step
    (if pos.side = Side.Buy then pos.entry * (1 + offset)
     else pos.entry * (1 - offset))
    tick_size

/-- Breakeven arming after TP1 (main.py, lines 472-485): unconditionally set
the stop to `be_price`. -/
def be_block (cfg : Config) (st : TradeState) (pos : PosInfo) (tick_size : ℚ) :
    TradeState × List GatewayCall :=
  if cfg.BE_ENABLED && cfg.BE_ARM_AFTER_TP1 && st.tp1_done && !st.be_done then
    let be_sl := be_price cfg pos tick_size
    ({ st with be_done := true, last_sl := be_sl }, [GatewayCall.setSL be_sl])
  else (st, [])

/-- The candidate trailing stop (main.py, lines 512-516): `mark ∓ atr*mult`
rounded down to tick. -/
def trail_candidate (cfg : Config) (pos : PosInfo) (klines : List Candle)
    (tick_size : ℚ) : ℚ :=
  let atr := calc_atr_from_klines klines cfg.ATR_LEN
  round_down_to_step
    (if pos.side = Side.Buy then pos.mark - atr * cfg.ATR_MULT
     else pos.mark + atr * cfg.ATR_MULT)
    tick_size

/-- ATR trailing (main.py, lines 487-533), gated only by a timer and a
profit threshold; the candidate stop is applied only if it tightens on
`last_sl` (or if `last_sl ≤ 0`). -/
def trail_block (cfg : Config) (st : TradeState) (pos : PosInfo)
    (klines : List Candle) (now : ℕ) (tick_size : ℚ) :
    TradeState × List GatewayCall :=
  if cfg.ATR_TRAIL_ENABLED then
    let minutes_in_trade := if 0 < st.entry_ts then (now - st.entry_ts) / 60 else 0
    if cfg.ATR_TRAIL_TIMER_BARS ≤ minutes_in_trade then
      let move_pct :=
        if 0 < pos.entry then
          if pos.side = Side.Buy then (pos.mark - pos.entry) / pos.entry * 100
          else (pos.entry - pos.mark) / pos.entry * 100
        else 0
      if cfg.ATR_TRAIL_START_PCT ≤ move_pct then
        let atr := calc_atr_from_klines klines cfg.ATR_LEN
        if 0 < atr then
          let new_sl := trail_candidate cfg pos klines tick_size
          if st.last_sl ≤ 0 then
            ({ st with last_sl := new_sl }, [GatewayCall.setSL new_sl])
          else if (pos.side = Side.Buy ∧ st.last_sl < new_sl) ∨
              (pos.side = Side.Sell ∧ new_sl < st.last_sl) then
            ({ st with last_sl := new_sl }, [GatewayCall.setSL new_sl])
          else (st, [])
        else (st, [])
      else (st, [])
    else (st, [])
  else (st, [])

/-- One pass of the background trade-manager loop body for one symbol
(main.py, lines 444-533).  Gateway reads are passed in: `pos?` is
`get_position_info`, `klines` the (reverse-chronological) `get_klines`
response, `now` the current Unix time, `tick_size` from the filter cache.
Returns the updated state and the gateway calls issued, in order. -/
def manager_step (cfg : Config) (st : TradeState) (pos? : Option PosInfo)
    (klines : List Candle) (now : ℕ) (tick_size : ℚ) :
    TradeState × List GatewayCall :=
  if !st.active then (st, [])
  else
    match pos? with
    | none => ({ st with active := false }, [])
    | some pos =>
      let st1 := tp1_detect cfg st pos now
      let be := be_block cfg st1 pos tick_size
      let tr := trail_block cfg be.1 pos klines now tick_size
      (tr.1, be.2 ++ tr.2)

/-- Iterated manager passes: each element of `obs` is one loop iteration's
gateway input (position snapshot, klines, time). -/
def manager_run (cfg : Config) (tick_size : ℚ) :
    TradeState → List (Option PosInfo × List Candle × ℕ) → TradeState × List GatewayCall
  | st, [] => (st, [])
  | st, (pos?, klines, now) :: rest =>
      let first := manager_step cfg st pos? klines now tick_size
      let next := manager_run cfg tick_size first.1 rest
      (next.1, first.2 ++ next.2)

/-- `passes_cost_filter` (main.py, lines 345-350): require
`tp_pct ≥ 2*fee + min_edge` unless the filter is disabled. -/
def passes_cost_filter (cfg : Config) (tp_pct : ℚ) : Bool :=
  if !cfg.COST_FILTER_ENABLED then true
  else decide (cfg.BYBIT_FEE_PCT * 2 + cfg.MIN_EDGE_PCT ≤ tp_pct)

/-- Which branch of `passes_bad_entry_filters` produced the result. -/
inductive FilterOutcome
  | disabled
  | noBidAsk
  | spreadReject
  | impulseReject
  | passed
deriving DecidableEq, Repr

/-- `passes_bad_entry_filters` (main.py, lines 353-384).  `bid`, `ask`,
`last` are the ticker snapshot; `klines` the kline response (most recent
bar first).  Missing bid/ask data (any value ≤ 0) passes the filter. -/
def passes_bad_entry_filters (cfg : Config) (bid ask last : ℚ)
    (klines : List Candle) : Bool × FilterOutcome :=
  if !cfg.BAD_ENTRY_FILTER_ENABLED then (true, FilterOutcome.disabled)
  else if bid ≤ 0 ∨ ask ≤ 0 ∨ last ≤ 0 then (true, FilterOutcome.noBidAsk)
  else
    let mid := (bid + ask) / 2
    let spread_pct := (ask - bid) / mid * 100
    if cfg.MAX_SPREAD_PCT < spread_pct then (false, FilterOutcome.spreadReject)
    else
      let atr := calc_atr_from_klines klines cfg.ATR_LEN
      match klines with
      | [] => (true, FilterOutcome.passed)
      | last_k :: _ =>
          if 0 < atr then
            let rng := last_k.high - last_k.low
            if atr * cfg.MAX_BAR_RANGE_ATR < rng then
              (false, FilterOutcome.impulseReject)
            else (true, FilterOutcome.passed)
          else (true, FilterOutcome.passed)

/-- `calc_tp_sl_prices` (main.py, lines 270-283): side-aware percentage
offsets from entry, both rounded down to tick. -/
def calc_tp_sl_prices (entry_price : ℚ) (side : Side) (tp_pct sl_pct tick_size : ℚ) :
    ℚ × ℚ :=
  let tp_p := tp_pct / 100
  let sl_p := sl_pct / 100
  let tp := if side = Side.Buy then entry_price * (1 + tp_p) else entry_price * (1 - tp_p)
  let sl := if side = Side.Buy then entry_price * (1 - sl_p) else entry_price * (1 + sl_p)
  (round_down_to_step tp tick_size, round_down_to_step sl tick_size)

/-- `calc_tp1_price` (main.py, lines 289-295). -/
def calc_tp1_price (entry_price : ℚ) (side : Side) (tp1_pct tick_size : ℚ) : ℚ :=
  let p := tp1_pct / 100
  round_down_to_step
    (if side = Side.Buy then entry_price * (1 + p) else entry_price * (1 - p))
    tick_size

/-- The response fields of `place_market_order_with_tpsl` consumed by the
webhook handler afterwards. -/
structure PlacedInfo where
  entry_price_used : ℚ
  qty : ℚ
  tp_price : ℚ
  sl_price : ℚ
deriving DecidableEq, Repr

/-- `place_market_order_with_tpsl` (main.py, lines 387-427): set leverage,
size `notional/price` down to step, reject a non-positive quantity
(`RuntimeError`, modelled as `none`; the leverage call has already gone
out), otherwise submit the market entry with position TP/SL attached. -/
def place_market_order_with_tpsl (side : Side) (usd : ℚ) (leverage : ℕ)
    (price qty_step tick_size tp_pct sl_pct : ℚ) :
    Option PlacedInfo × List GatewayCall :=
  let notional := usd * (leverage : ℚ)
  let raw_qty := notional / price
  let qty := round_down_to_step raw_qty qty_step
  if qty ≤ 0 then (none, [GatewayCall.setLeverage leverage])
  else
    let prices := calc_tp_sl_prices price side tp_pct sl_pct tick_size
    (some { entry_price_used := price, qty := qty,
            tp_price := prices.1, sl_price := prices.2 },
     [GatewayCall.setLeverage leverage,
      GatewayCall.placeEntry side qty prices.1 prices.2])

/-- Outcome tag of one webhook invocation (mirrors the handler's distinct
`ok`/error returns). -/
inductive WebhookResult
  | skipCost
  | skipBadEntry
  | skipReverseLoss
  | skipSameDirection
  | skipAlreadyOpen
  | badQty
  | placed
deriving DecidableEq, Repr

/-- The entry-placement tail of the webhook handler (main.py, lines
700-747): place the market order with TP/SL, optionally place the
reduce-only TP1 if its quantized quantity is positive, and register the
in-memory trade state.  `closeCalls` are calls already issued by the
reversal branch. -/
def webhook_place_part (cfg : Config) (side : Side) (usd : ℚ) (leverage : ℕ)
    (price qty_step tick_size tp_pct sl_pct : ℚ) (now : ℕ)
    (closeCalls : List GatewayCall) (prevState? : Option TradeState) :
    WebhookResult × Option TradeState × List GatewayCall :=
  let placed := place_market_order_with_tpsl side usd leverage price qty_step
    tick_size tp_pct sl_pct
  match placed.1 with
  | none => (WebhookResult.badQty, prevState?, closeCalls ++ placed.2)
  | some info =>
      let tp1 :=
        if cfg.TP1_ENABLED then
          let tp1_price := calc_tp1_price info.entry_price_used side cfg.TP1_PCT tick_size
          let tp1_qty := round_down_to_step (info.qty * cfg.TP1_QTY_PCT) qty_step
          if 0 < tp1_qty then
            ([GatewayCall.placeTP1 (close_side side) tp1_qty tp1_price], true)
          else ([], false)
        else ([], false)
      let newState : TradeState :=
        { active := true, entry_ts := now, entry_price := info.entry_price_used,
          side := side, initial_qty := info.qty, tp1_placed := tp1.2,
          tp1_done := false, tp1_done_ts := 0, be_done := false,
          last_sl := info.sl_price }
      (WebhookResult.placed, some newState, closeCalls ++ placed.2 ++ tp1.1)

/-- The webhook handler from the cost filter onward (main.py, lines
661-747): cost gate, spread/impulse gate, reversal handling, then entry
placement.  Gateway reads are explicit inputs: ticker `(bid, ask, last)`,
`klines`, position snapshot `pos?`, `open_size` (from
`get_open_position_size`), `price` (the last price used for sizing) and
the instrument filters.  `prevState?` is the symbol's registered state
before the call; the second component is the state after. -/
def webhook_flow (cfg : Config) (side : Side) (usd : ℚ) (leverage : ℕ)
    (tp_pct sl_pct : ℚ) (bid ask last : ℚ) (klines : List Candle)
    (pos? : Option PosInfo) (open_size : ℚ) (price qty_step tick_size : ℚ)
    (now : ℕ) (prevState? : Option TradeState) :
    WebhookResult × Option TradeState × List GatewayCall :=
  if !passes_cost_filter cfg tp_pct then
    (WebhookResult.skipCost, prevState?, [])
  else if !(passes_bad_entry_filters cfg bid ask last klines).1 then
    (WebhookResult.skipBadEntry, prevState?, [])
  else
    match pos?, cfg.REVERSE_ENABLED with
    | some pos, true =>
        if (pos.side = Side.Buy ∧ side = Side.Sell) ∨
            (pos.side = Side.Sell ∧ side = Side.Buy) then
          if cfg.REVERSE_ONLY_IF_NOT_IN_LOSS = true ∧
              pos.pnl_pct < -cfg.REVERSE_MAX_LOSS_PCT then
            (WebhookResult.skipReverseLoss, prevState?, [])
          else
            webhook_place_part cfg side usd leverage price qty_step tick_size
              tp_pct sl_pct now [GatewayCall.closeMarket pos.side pos.size] prevState?
        else (WebhookResult.skipSameDirection, prevState?, [])
    | _, _ =>
        if 0 < open_size then (WebhookResult.skipAlreadyOpen, prevState?, [])
        else
          webhook_place_part cfg side usd leverage price qty_step tick_size
            tp_pct sl_pct now [] prevState?

/-- The ATR the spec describes (section 4.6): Wilder smoothing
`atr[0] = tr[0]`, `atr[i] = (atr[i-1]*(L-1) + tr[i]) / L` over the
true ranges of the chronologically-normalized candle sequence.  Stated
from the spec's words, for comparison against `calc_atr_from_klines`. -/
def specWilderAtr (klines : List Candle) (length : ℕ) : ℚ :=
  match trueRanges klines.reverse with
  | [] => 0
  | tr0 :: rest =>
      rest.foldl (fun acc tr => (acc * ((length : ℚ) - 1) + tr) / (length : ℚ)) tr0

/-- The breakeven price the spec describes (section 4.5): entry adjusted in
the profit direction by `(beOffsetPct + feePct)` percent, rounded to tick.
Stated from the spec's words, for comparison against the code's BE price. -/
def specBePrice (entry : ℚ) (side : Side) (beOffsetPct feePct tick : ℚ) : ℚ :=
  round_down_to_step
    (if side = Side.Buy then entry * (1 + (beOffsetPct + feePct) / 100)
     else entry * (1 - (beOffsetPct + feePct) / 100))
    tick

/-! ## Concrete instances used by counterexamples and witnesses -/

/-- A configuration with the source's default flags, `ATR_LEN = 2` and
`ATR_MULT = 1` (both environment-tunable), and the documented default
percentages. -/
def cfg0 : Config :=
  { COST_FILTER_ENABLED := true, BYBIT_FEE_PCT := 1/10, MIN_EDGE_PCT := 1/5,
    BAD_ENTRY_FILTER_ENABLED := true, MAX_SPREAD_PCT := 3/50,
    MAX_BAR_RANGE_ATR := 5/2,
    TP1_ENABLED := true, TP1_PCT := 1/2, TP1_QTY_PCT := 1/2,
    BE_ENABLED := true, BE_ARM_AFTER_TP1 := true, BE_OFFSET_PCT := 0,
    ATR_TRAIL_ENABLED := true, ATR_LEN := 2, ATR_MULT := 1,
    ATR_TRAIL_START_PCT := 3/20, ATR_TRAIL_TIMER_BARS := 0,
    REVERSE_ENABLED := true, REVERSE_ONLY_IF_NOT_IN_LOSS := true,
    REVERSE_MAX_LOSS_PCT := 1/20 }

/-- Reverse-chronological klines whose last two true ranges are both 2,
so `calc_atr_from_klines kl0 2 = 2`. -/
def kl0 : List Candle :=
  [⟨101, 99, 100⟩, ⟨101, 99, 100⟩, ⟨101, 99, 100⟩, ⟨100, 100, 100⟩]

/-- Reverse-chronological klines whose chronological true ranges are
`[4, 0, 0]`: SMA over the last 2 is 0, Wilder smoothing gives 1. -/
def klC1 : List Candle :=
  [⟨4, 4, 4⟩, ⟨4, 4, 4⟩, ⟨4, 4, 4⟩, ⟨0, 0, 0⟩]

/-- A registered long state: entry 100, initial qty 1, TP1 placed, initial
stop-loss 99.65 (the registration shape of main.py, lines 728-738). -/
def s0 : TradeState :=
  { active := true, entry_ts := 60, entry_price := 100, side := Side.Buy,
    initial_qty := 1, tp1_placed := true, tp1_done := false, tp1_done_ts := 0,
    be_done := false, last_sl := 1993/20 }

/-- Like `s0` but with no TP1 order on the book. -/
def sNoTp1 : TradeState :=
  { s0 with tp1_placed := false }

/-- Position snapshot: long 1.0 at entry 100, mark 110 (well in profit,
size untouched so TP1 cannot be considered filled). -/
def pos1 : PosInfo :=
  { side := Side.Buy, size := 1, entry := 100, mark := 110, pnl_pct := 10 }

/-- Position snapshot after a partial close to 0.5, mark 100.1 (profit gate
for trailing not met). -/
def pos2 : PosInfo :=
  { side := Side.Buy, size := 1/2, entry := 100, mark := 1001/10, pnl_pct := 1/10 }

/-- Position snapshot with observed size 0.58, mark 100.1. -/
def pos58 : PosInfo :=
  { side := Side.Buy, size := 29/50, entry := 100, mark := 1001/10, pnl_pct := 1/10 }

/-- The state after the first manager pass on `s0`/`pos1`: the trailing
stop was set to `110 - 2*1 = 108`. -/
def s1 : TradeState :=
  { s0 with last_sl := 108 }

/-- A state already armed at breakeven with `last_sl = 99`, used to
exercise the trailing ratchet. -/
def s4 : TradeState :=
  { active := true, entry_ts := 60, entry_price := 100, side := Side.Buy,
    initial_qty := 1, tp1_placed := true, tp1_done := true, tp1_done_ts := 0,
    be_done := true, last_sl := 99 }

/-- Position at mark 101.2: with ATR 2 and mult 1 the trailing candidate is
`99.20`. -/
def posHi : PosInfo :=
  { side := Side.Buy, size := 1/2, entry := 100, mark := 506/5, pnl_pct := 1 }

/-- Position at mark 100.8: with ATR 2 and mult 1 the trailing candidate is
`98.80`. -/
def posLo : PosInfo :=
  { side := Side.Buy, size := 1/2, entry := 100, mark := 504/5, pnl_pct := 1 }

/-- A state with TP1 already detected but breakeven not yet set. -/
def sTp1Done : TradeState :=
  { s0 with tp1_done := true }

/-- A long position losing 0.10% unrealized. -/
def posRevLoss : PosInfo :=
  { side := Side.Buy, size := 1, entry := 100, mark := 100, pnl_pct := -1/10 }

/-- A long position at flat unrealized PnL. -/
def posRevOk : PosInfo :=
  { side := Side.Buy, size := 1, entry := 100, mark := 100, pnl_pct := 0 }

example : ratTrunc (-3/2 : ℚ) = -1 := by norm_num [ratTrunc, Rat.floor_def]
example : round_down_to_step (175/1000) (1/10) = 1/10 := by
  norm_num [round_down_to_step, ratTrunc, Rat.floor_def]
example : round_down_to_step (-3/20) (1/10) = -1/10 := by
  norm_num [round_down_to_step, ratTrunc, Rat.floor_def]
example :
    trueRanges [⟨0,0,0⟩, ⟨4,4,4⟩, ⟨4,4,4⟩, ⟨4,4,4⟩] = [4, 0, 0] := by
  norm_num [trueRanges]
example :
    calc_atr_from_klines [⟨4,4,4⟩, ⟨4,4,4⟩, ⟨4,4,4⟩, ⟨0,0,0⟩] 2 = 0 := by
  norm_num [calc_atr_from_klines, trueRanges]

/-! ## Helper lemmas about the manager blocks -/

lemma tp1_detect_tp1_done (cfg : Config) (st : TradeState) (pos : PosInfo) (now : ℕ)
    (hen : cfg.TP1_ENABLED = true) (hpl : st.tp1_placed = true)
    (hnd : st.tp1_done = false) :
    (tp1_detect cfg st pos now).tp1_done =
      decide (pos.size ≤ st.initial_qty * (1 - cfg.TP1_QTY_PCT * (8/10))) := by
  unfold tp1_detect
  simp only [hen, hpl, hnd, Bool.not_false, Bool.and_true, Bool.true_and, if_true]
  split_ifs with h <;> simp [h, hnd]

lemma tp1_detect_preserve (cfg : Config) (st : TradeState) (pos : PosInfo) (now : ℕ) :
    (tp1_detect cfg st pos now).active = st.active ∧
    (tp1_detect cfg st pos now).be_done = st.be_done ∧
    (tp1_detect cfg st pos now).tp1_placed = st.tp1_placed ∧
    (tp1_detect cfg st pos now).last_sl = st.last_sl ∧
    (tp1_detect cfg st pos now).initial_qty = st.initial_qty ∧
    (tp1_detect cfg st pos now).entry_ts = st.entry_ts := by
  unfold tp1_detect
  simp only [apply_ite TradeState.active, apply_ite TradeState.be_done,
    apply_ite TradeState.tp1_placed, apply_ite TradeState.last_sl,
    apply_ite TradeState.initial_qty, apply_ite TradeState.entry_ts]
  simp

lemma tp1_detect_skip_unplaced (cfg : Config) (st : TradeState) (pos : PosInfo)
    (now : ℕ) (h : st.tp1_placed = false) :
    tp1_detect cfg st pos now = st := by
  unfold tp1_detect
  simp [h]

lemma tp1_detect_skip_done (cfg : Config) (st : TradeState) (pos : PosInfo)
    (now : ℕ) (h : st.tp1_done = true) :
    tp1_detect cfg st pos now = st := by
  unfold tp1_detect
  simp [h]

lemma tp1_detect_mono (cfg : Config) (st : TradeState) (pos : PosInfo) (now : ℕ)
    (h : st.tp1_done = true) : (tp1_detect cfg st pos now).tp1_done = true := by
  rw [tp1_detect_skip_done cfg st pos now h]
  exact h

lemma be_block_tp1_done (cfg : Config) (st : TradeState) (pos : PosInfo) (tick : ℚ) :
    (be_block cfg st pos tick).1.tp1_done = st.tp1_done := by
  unfold be_block
  simp only [apply_ite Prod.fst, apply_ite TradeState.tp1_done]
  simp

lemma be_block_tp1_placed (cfg : Config) (st : TradeState) (pos : PosInfo) (tick : ℚ) :
    (be_block cfg st pos tick).1.tp1_placed = st.tp1_placed := by
  unfold be_block
  simp only [apply_ite Prod.fst, apply_ite TradeState.tp1_placed]
  simp

lemma be_block_skip_notdone (cfg : Config) (st : TradeState) (pos : PosInfo)
    (tick : ℚ) (h : st.tp1_done = false) :
    be_block cfg st pos tick = (st, []) := by
  unfold be_block
  simp [h]

lemma be_block_skip_done (cfg : Config) (st : TradeState) (pos : PosInfo)
    (tick : ℚ) (h : st.be_done = true) :
    be_block cfg st pos tick = (st, []) := by
  unfold be_block
  simp [h]

lemma be_block_fire (cfg : Config) (st : TradeState) (pos : PosInfo) (tick : ℚ)
    (hen : cfg.BE_ENABLED = true) (harm : cfg.BE_ARM_AFTER_TP1 = true)
    (hdone : st.tp1_done = true) (hnb : st.be_done = false) :
    be_block cfg st pos tick =
      ({ st with be_done := true, last_sl := be_price cfg pos tick },
       [GatewayCall.setSL (be_price cfg pos tick)]) := by
  unfold be_block
  simp [hen, harm, hdone, hnb]

lemma be_block_imp (cfg : Config) (st : TradeState) (pos : PosInfo) (tick : ℚ)
    (h : st.be_done = true → st.tp1_done = true) :
    (be_block cfg st pos tick).1.be_done = true →
      (be_block cfg st pos tick).1.tp1_done = true := by
  unfold be_block
  split_ifs with hc
  · intro _
    simp only [Bool.and_eq_true, Bool.not_eq_true'] at hc
    simp_all
  · dsimp only
    exact h

lemma be_block_calls (cfg : Config) (st : TradeState) (pos : PosInfo) (tick : ℚ) :
    ∀ c ∈ (be_block cfg st pos tick).2, ∃ p, c = GatewayCall.setSL p := by
  unfold be_block
  split_ifs <;> simp

lemma trail_block_preserve (cfg : Config) (st : TradeState) (pos : PosInfo)
    (kl : List Candle) (now : ℕ) (tick : ℚ) :
    (trail_block cfg st pos kl now tick).1.tp1_done = st.tp1_done ∧
    (trail_block cfg st pos kl now tick).1.be_done = st.be_done ∧
    (trail_block cfg st pos kl now tick).1.tp1_placed = st.tp1_placed ∧
    (trail_block cfg st pos kl now tick).1.active = st.active := by
  unfold trail_block
  simp only [apply_ite Prod.fst, apply_ite TradeState.tp1_done,
    apply_ite TradeState.be_done, apply_ite TradeState.tp1_placed,
    apply_ite TradeState.active]
  simp

lemma trail_block_calls (cfg : Config) (st : TradeState) (pos : PosInfo)
    (kl : List Candle) (now : ℕ) (tick : ℚ) :
    ∀ c ∈ (trail_block cfg st pos kl now tick).2, ∃ p, c = GatewayCall.setSL p := by
  unfold trail_block
  simp only [apply_ite Prod.snd]
  intro c hc
  repeat' split at hc
  all_goals simp_all

lemma trail_block_no_atr (cfg : Config) (st : TradeState) (pos : PosInfo)
    (kl : List Candle) (now : ℕ) (tick : ℚ)
    (h : ¬ 0 < calc_atr_from_klines kl cfg.ATR_LEN) :
    trail_block cfg st pos kl now tick = (st, []) := by
  unfold trail_block
  split_ifs <;> simp_all

lemma calc_atr_short (klines : List Candle) (length : ℕ)
    (h : klines.length < length + 2) :
    calc_atr_from_klines klines length = 0 := by
  unfold calc_atr_from_klines
  simp [h]

lemma trail_block_ratchet_long (cfg : Config) (st : TradeState) (pos : PosInfo)
    (kl : List Candle) (now : ℕ) (tick : ℚ) (hsl : 0 < st.last_sl)
    (hside : pos.side = Side.Buy) :
    ∀ p, GatewayCall.setSL p ∈ (trail_block cfg st pos kl now tick).2 →
      st.last_sl < p := by
  intro p hp
  unfold trail_block at hp
  rw [hside] at hp
  dsimp only at hp
  repeat' split at hp
  all_goals try simp_all
  all_goals exfalso; linarith

lemma trail_block_ratchet_short (cfg : Config) (st : TradeState) (pos : PosInfo)
    (kl : List Candle) (now : ℕ) (tick : ℚ) (hsl : 0 < st.last_sl)
    (hside : pos.side = Side.Sell) :
    ∀ p, GatewayCall.setSL p ∈ (trail_block cfg st pos kl now tick).2 →
      p < st.last_sl := by
  intro p hp
  unfold trail_block at hp
  rw [hside] at hp
  dsimp only at hp
  repeat' split at hp
  all_goals try simp_all
  all_goals exfalso; linarith

lemma trail_block_no_improve (cfg : Config) (st : TradeState) (pos : PosInfo)
    (kl : List Candle) (now : ℕ) (tick : ℚ) (hsl : 0 < st.last_sl)
    (hside : pos.side = Side.Buy)
    (hno : trail_candidate cfg pos kl tick ≤ st.last_sl) :
    trail_block cfg st pos kl now tick = (st, []) := by
  unfold trail_block
  rw [hside]
  dsimp only
  split_ifs <;> try rfl
  all_goals exfalso
  all_goals simp_all
  all_goals linarith

lemma manager_step_no_cancel (cfg : Config) (st : TradeState)
    (pos? : Option PosInfo) (kl : List Candle) (now : ℕ) (tick : ℚ) :
    GatewayCall.cancelAllOrders ∉ (manager_step cfg st pos? kl now tick).2 := by
  cases pos? with
  | none => unfold manager_step; split_ifs <;> simp
  | some pos =>
      unfold manager_step
      split_ifs with hact
      · simp
      · intro hm
        simp only [List.mem_append] at hm
        rcases hm with hm | hm
        · obtain ⟨p, hp⟩ := be_block_calls cfg (tp1_detect cfg st pos now) pos tick _ hm
          simp at hp
        · obtain ⟨p, hp⟩ :=
            trail_block_calls cfg (be_block cfg (tp1_detect cfg st pos now) pos tick).1
              pos kl now tick _ hm
          simp at hp

lemma manager_step_preserve_unarmed (cfg : Config) (st : TradeState)
    (pos? : Option PosInfo) (kl : List Candle) (now : ℕ) (tick : ℚ)
    (h1 : st.tp1_placed = false) (h2 : st.tp1_done = false) (h3 : st.be_done = false) :
    (manager_step cfg st pos? kl now tick).1.tp1_placed = false ∧
    (manager_step cfg st pos? kl now tick).1.tp1_done = false ∧
    (manager_step cfg st pos? kl now tick).1.be_done = false := by
  cases pos? with
  | none => unfold manager_step; split_ifs <;> simp [h1, h2, h3]
  | some pos =>
      have e1 := tp1_detect_skip_unplaced cfg st pos now h1
      have h4 := trail_block_preserve cfg st pos kl now tick
      unfold manager_step
      split_ifs with hact
      · exact ⟨h1, h2, h3⟩
      · simp only [e1, be_block_skip_notdone cfg st pos tick h2]
        exact ⟨h4.2.2.1.trans h1, h4.1.trans h2, h4.2.1.trans h3⟩

lemma manager_run_unarmed (cfg : Config) (tick : ℚ) (st : TradeState)
    (obs : List (Option PosInfo × List Candle × ℕ))
    (h1 : st.tp1_placed = false) (h2 : st.tp1_done = false) (h3 : st.be_done = false) :
    (manager_run cfg tick st obs).1.tp1_placed = false ∧
    (manager_run cfg tick st obs).1.tp1_done = false ∧
    (manager_run cfg tick st obs).1.be_done = false := by
  induction obs generalizing st with
  | nil => exact ⟨h1, h2, h3⟩
  | cons ob rest ih =>
      obtain ⟨pos?, kl, now⟩ := ob
      have hs := manager_step_preserve_unarmed cfg st pos? kl now tick h1 h2 h3
      simpa [manager_run] using ih _ hs.1 hs.2.1 hs.2.2

/-! ## Arithmetic lemmas for the quantizer and the ATR -/

lemma ratTrunc_intCast (n : ℤ) : ratTrunc (n : ℚ) = n := by
  unfold ratTrunc
  split_ifs with h
  · rw [← Int.cast_neg, Int.floor_intCast, neg_neg]
  · simp

lemma ratTrunc_nonneg_eq_floor (q : ℚ) (h : 0 ≤ q) : ratTrunc q = ⌊q⌋ := by
  unfold ratTrunc
  rw [if_neg (not_lt.mpr h)]

lemma trueRanges_length : ∀ l : List Candle, (trueRanges l).length = l.length - 1
  | [] => rfl
  | [_] => rfl
  | _ :: b :: rest => by
      have ih := trueRanges_length (b :: rest)
      simp only [trueRanges, List.length_cons, ih]
      omega

/-! ## Claim theorems -/

/-- Claim C7, counterexample: `ROUND_DOWN` in `Decimal.quantize` rounds
towards zero, not down; at `value = -0.15`, `step = 0.1`, the quantizer
returns `-0.1`, not `floor(value/step)*step = -0.2`, and the bracketing
bound `q ≤ value` fails. -/
theorem floor_to_step_negative_cex :
    round_down_to_step (-3/20) (1/10) = -1/10 ∧
    ⌊((-3/20 : ℚ)) / (1/10)⌋ * (1/10 : ℚ) = -2/10 ∧
    (-1/10 : ℚ) ≠ -2/10 ∧
    ¬ round_down_to_step (-3/20) (1/10) ≤ -3/20 := by
  norm_num [round_down_to_step, ratTrunc, Rat.floor_def]

/-- Claim C7 (amended): `round_down_to_step` truncates `value/step`
towards zero.  For `step ≤ 0` it returns `value`; for `step > 0` it is
idempotent and returns an integer multiple of `step`; on the nonnegative
values that prices and quantities take it agrees with
`floor(value/step)*step` and satisfies `q ≤ value < q + step`. -/
theorem round_down_to_step_spec (value step : ℚ) :
    (step ≤ 0 → round_down_to_step value step = value) ∧
    (0 < step →
      round_down_to_step (round_down_to_step value step) step =
        round_down_to_step value step ∧
      ∃ n : ℤ, round_down_to_step value step = n * step) ∧
    (0 < step → 0 ≤ value →
      round_down_to_step value step = ⌊value / step⌋ * step ∧
      round_down_to_step value step ≤ value ∧
      value < round_down_to_step value step + step) := by
  refine ⟨fun h => ?_, fun hs => ⟨?_, ?_⟩, fun hs hv => ?_⟩
  · unfold round_down_to_step
    rw [if_pos h]
  · have hs' : ¬ step ≤ 0 := not_le.mpr hs
    unfold round_down_to_step
    rw [if_neg hs', if_neg hs', mul_div_cancel_right₀ _ (ne_of_gt hs), ratTrunc_intCast]
  · have hs' : ¬ step ≤ 0 := not_le.mpr hs
    refine ⟨ratTrunc (value / step), ?_⟩
    unfold round_down_to_step
    rw [if_neg hs']
  · have hs' : ¬ step ≤ 0 := not_le.mpr hs
    have hq : 0 ≤ value / step := div_nonneg hv hs.le
    have hfloor : round_down_to_step value step = ⌊value / step⌋ * step := by
      unfold round_down_to_step
      rw [if_neg hs', ratTrunc_nonneg_eq_floor _ hq]
    refine ⟨hfloor, ?_, ?_⟩
    · rw [hfloor]
      have h1 : (⌊value / step⌋ : ℚ) ≤ value / step := Int.floor_le _
      calc (⌊value / step⌋ : ℚ) * step ≤ (value / step) * step :=
            mul_le_mul_of_nonneg_right h1 hs.le
        _ = value := div_mul_cancel₀ value (ne_of_gt hs)
    · rw [hfloor]
      have h2 : value / step < (⌊value / step⌋ : ℚ) + 1 := Int.lt_floor_add_one _
      calc value = (value / step) * step := (div_mul_cancel₀ value (ne_of_gt hs)).symm
        _ < ((⌊value / step⌋ : ℚ) + 1) * step := by
            exact mul_lt_mul_of_pos_right h2 hs
        _ = (⌊value / step⌋ : ℚ) * step + step := by ring

/-- Claim C7, witness: the spec properties instantiated at
`value = 0.175`, `step = 0.1`. -/
theorem round_down_to_step_witness :
    round_down_to_step (round_down_to_step (175/1000) (1/10)) (1/10) =
      round_down_to_step (175/1000) (1/10) ∧
    round_down_to_step (175/1000) (1/10) = ⌊(175/1000 : ℚ) / (1/10)⌋ * (1/10 : ℚ) ∧
    round_down_to_step (175/1000) (1/10) ≤ 175/1000 ∧
    (175/1000 : ℚ) < round_down_to_step (175/1000) (1/10) + 1/10 := by
  have h := round_down_to_step_spec (175/1000) (1/10)
  have h2 := h.2.1 (by norm_num)
  have h3 := h.2.2 (by norm_num) (by norm_num)
  exact ⟨h2.1, h3.1, h3.2.1, h3.2.2⟩

/-- Claim C1, counterexample: on four bars with true ranges `[4, 0, 0]` and
`L = 2`, the code's ATR is the SMA of the last two true ranges, 0, while the
Wilder-smoothed ATR the spec describes is 1. -/
theorem atr_not_wilder_cex :
    calc_atr_from_klines klC1 2 = 0 ∧
    specWilderAtr klC1 2 = 1 ∧
    2 + 2 ≤ klC1.length ∧
    calc_atr_from_klines klC1 2 ≠ specWilderAtr klC1 2 := by
  norm_num [calc_atr_from_klines, specWilderAtr, trueRanges, klC1, List.foldl]

/-- Claim C1 (amended): the per-bar true range is as specified, but the
smoothing is a plain SMA: for any candle list with at least `L + 2` bars
(`L ≥ 1`), the returned ATR times `L` equals the sum of the last `L` true
ranges of the chronologically-normalized sequence. -/
theorem atr_is_sma_of_last_trs (klines : List Candle) (L : ℕ) (hL : 1 ≤ L)
    (hlen : L + 2 ≤ klines.length) :
    calc_atr_from_klines klines L * (L : ℚ) =
      ((trueRanges klines.reverse).reverse.take L).sum := by
  have hlen' : (trueRanges klines.reverse).length = klines.length - 1 := by
    rw [trueRanges_length, List.length_reverse]
  have hg1 : ¬ klines.length < L + 2 := not_lt.mpr hlen
  have hg2 : ¬ (trueRanges klines.reverse).length < L := by
    rw [hlen']
    omega
  have hL0 : (L : ℚ) ≠ 0 := by
    exact_mod_cast Nat.one_le_iff_ne_zero.mp hL
  unfold calc_atr_from_klines
  rw [if_neg hg1]
  dsimp only
  rw [if_neg hg2, div_mul_cancel₀ _ hL0]
  have : (trueRanges klines.reverse).drop ((trueRanges klines.reverse).length - L) =
      (trueRanges klines.reverse).rtake L := rfl
  rw [this, List.rtake_eq_reverse_take_reverse, List.sum_reverse]

/-- Claim C1, witness: the SMA characterization at the concrete list
`klC1` with `L = 2`. -/
theorem atr_is_sma_witness :
    1 ≤ 2 ∧ 2 + 2 ≤ klC1.length ∧
    calc_atr_from_klines klC1 2 * (2 : ℚ) =
      ((trueRanges klC1.reverse).reverse.take 2).sum :=
  ⟨by norm_num, by norm_num [klC1],
    atr_is_sma_of_last_trs klC1 2 (by norm_num) (by norm_num [klC1])⟩

/-- Claim C2, counterexample: with `initialQty = 1.0` and `tp1Qty = 0.5`
the claim says TP1 is marked filled exactly when the observed size is
`≤ 0.55`; the code fires at an observed size of `0.58`, because its
threshold is `initialQty * (1 - TP1_QTY_PCT * 0.8) = 0.6`. -/
theorem tp1_fill_threshold_cex :
    (manager_step cfg0 s0 (some pos58) kl0 6000 (1/100)).1.tp1_done = true ∧
    ¬ pos58.size ≤ s0.initial_qty - (1/2) * (9/10) := by
  norm_num [manager_step, tp1_detect, be_block, be_price, trail_block,
    trail_candidate, calc_atr_from_klines, trueRanges, round_down_to_step,
    ratTrunc, Rat.floor_def, cfg0, s0, pos58, kl0]

/-- Claim C2 (amended): on a reconciliation pass with a live position, TP1
enabled, placed and not yet done, the code marks `tp1_done` exactly when
the observed size is at most `initialQty * (1 - TP1_QTY_PCT * 0.8)` — an
80% tolerance on the configured fraction, not 90% of the placed TP1
quantity. -/
theorem tp1_fill_detection_iff (cfg : Config) (st : TradeState) (pos : PosInfo)
    (kl : List Candle) (now : ℕ) (tick : ℚ)
    (hact : st.active = true) (hen : cfg.TP1_ENABLED = true)
    (hpl : st.tp1_placed = true) (hnd : st.tp1_done = false) :
    (manager_step cfg st (some pos) kl now tick).1.tp1_done = true ↔
      pos.size ≤ st.initial_qty * (1 - cfg.TP1_QTY_PCT * (8/10)) := by
  unfold manager_step
  simp only [hact, Bool.not_true, if_false, Bool.false_eq_true]
  rw [(trail_block_preserve cfg
        (be_block cfg (tp1_detect cfg st pos now) pos tick).1 pos kl now tick).1,
      be_block_tp1_done, tp1_detect_tp1_done cfg st pos now hen hpl hnd]
  simp

/-- Claim C2, witness: the detection characterization applied at
`initialQty = 1`, `TP1_QTY_PCT = 0.5`, observed size `0.58`. -/
theorem tp1_fill_detection_witness :
    s0.active = true ∧ cfg0.TP1_ENABLED = true ∧ s0.tp1_placed = true ∧
    s0.tp1_done = false ∧
    ((manager_step cfg0 s0 (some pos58) kl0 6000 (1/100)).1.tp1_done = true ↔
      pos58.size ≤ s0.initial_qty * (1 - cfg0.TP1_QTY_PCT * (8/10))) :=
  ⟨rfl, rfl, rfl, rfl,
    tp1_fill_detection_iff cfg0 s0 pos58 kl0 6000 (1/100) rfl rfl rfl rfl⟩

/-- Claim C3, counterexample: a trailing-stop update is sent to the
exchange while `tp1_done` is still false — the trailing block is gated only
by the timer and the profit threshold, not by TP1. -/
theorem trailing_without_tp1_cex :
    s0.tp1_done = false ∧
    manager_step cfg0 s0 (some pos1) kl0 6000 (1/100) =
      ({ s0 with last_sl := 108 }, [GatewayCall.setSL 108]) ∧
    (manager_step cfg0 s0 (some pos1) kl0 6000 (1/100)).1.tp1_done = false := by
  norm_num [manager_step, tp1_detect, be_block, be_price, trail_block,
    trail_candidate, calc_atr_from_klines, trueRanges, round_down_to_step,
    ratTrunc, Rat.floor_def, cfg0, s0, pos1, kl0]

/-- Claim C3 (amended): of the two spec invariants only
`breakevenSet ⇒ tp1Filled` holds: it is preserved by every manager pass.
(`trailingEnabled ⇒ tp1Filled` fails; the trailing block runs regardless
of TP1, see the counterexample.) -/
theorem breakeven_implies_tp1_preserved (cfg : Config) (st : TradeState)
    (pos? : Option PosInfo) (kl : List Candle) (now : ℕ) (tick : ℚ)
    (h : st.be_done = true → st.tp1_done = true) :
    (manager_step cfg st pos? kl now tick).1.be_done = true →
      (manager_step cfg st pos? kl now tick).1.tp1_done = true := by
  cases pos? with
  | none =>
      unfold manager_step
      split_ifs <;> exact h
  | some pos =>
      unfold manager_step
      split_ifs with hact
      · exact h
      · have hp := tp1_detect_preserve cfg st pos now
        have h' : (tp1_detect cfg st pos now).be_done = true →
            (tp1_detect cfg st pos now).tp1_done = true := by
          intro hb
          rw [hp.2.1] at hb
          exact tp1_detect_mono cfg st pos now (h hb)
        have h'' := be_block_imp cfg (tp1_detect cfg st pos now) pos tick h'
        have ht := trail_block_preserve cfg
          (be_block cfg (tp1_detect cfg st pos now) pos tick).1 pos kl now tick
        intro hb
        dsimp only at hb ⊢
        rw [ht.1]
        rw [ht.2.1] at hb
        exact h'' hb

/-- Claim C3, witness: the preserved half-invariant applied at a concrete
pass whose breakeven fires, yielding `tp1_done = true` afterwards. -/
theorem breakeven_implies_tp1_witness :
    (manager_step cfg0 sTp1Done (some pos2) kl0 6060 (1/100)).1.tp1_done = true := by
  apply breakeven_implies_tp1_preserved cfg0 sTp1Done (some pos2) kl0 6060 (1/100)
  · intro _
    norm_num [sTp1Done, s0]
  · norm_num [manager_step, tp1_detect, be_block, be_price, trail_block,
      trail_candidate, calc_atr_from_klines, trueRanges, round_down_to_step,
      ratTrunc, Rat.floor_def, cfg0, s0, sTp1Done, pos2, kl0]

/-- Claim C6, counterexample: all trailing gates hold (trailing enabled,
timer expired, price 10% in favor) but the kline data is empty, so the ATR
is 0 and the manager makes no stop call at all — there is no one-tick
fallback. -/
theorem atr_no_fallback_cex :
    cfg0.ATR_TRAIL_ENABLED = true ∧
    cfg0.ATR_TRAIL_TIMER_BARS ≤ (6000 - sNoTp1.entry_ts) / 60 ∧
    cfg0.ATR_TRAIL_START_PCT ≤ (pos1.mark - pos1.entry) / pos1.entry * 100 ∧
    calc_atr_from_klines [] cfg0.ATR_LEN = 0 ∧
    manager_step cfg0 sNoTp1 (some pos1) [] 6000 (1/100) = (sNoTp1, []) := by
  norm_num [manager_step, tp1_detect, be_block, be_price, trail_block,
    trail_candidate, calc_atr_from_klines, trueRanges, round_down_to_step,
    ratTrunc, Rat.floor_def, cfg0, sNoTp1, s0, pos1]

/-- Claim C6 (amended): when the kline data is insufficient for an ATR of
length `L` the ATR computes to 0 and the trailing update is skipped
entirely; on a pass where neither TP1 detection nor the breakeven block
can fire, the manager then issues no gateway call at all. -/
theorem atr_insufficient_skips_trailing (cfg : Config) (st : TradeState)
    (pos : PosInfo) (kl : List Candle) (now : ℕ) (tick : ℚ)
    (hact : st.active = true) (hpl : st.tp1_placed = false)
    (hnd : st.tp1_done = false)
    (hshort : kl.length < cfg.ATR_LEN + 2) :
    calc_atr_from_klines kl cfg.ATR_LEN = 0 ∧
    manager_step cfg st (some pos) kl now tick = (st, []) := by
  have hatr := calc_atr_short kl cfg.ATR_LEN hshort
  refine ⟨hatr, ?_⟩
  unfold manager_step
  simp only [hact, Bool.not_true, Bool.false_eq_true, if_false]
  rw [tp1_detect_skip_unplaced cfg st pos now hpl]
  rw [be_block_skip_notdone cfg st pos tick hnd]
  dsimp only
  rw [trail_block_no_atr cfg st pos kl now tick (by rw [hatr]; norm_num)]
  rfl

/-- Claim C6, witness: the fail-closed behaviour at the concrete inputs of
the counterexample scenario. -/
theorem atr_insufficient_witness :
    calc_atr_from_klines [] cfg0.ATR_LEN = 0 ∧
    manager_step cfg0 sNoTp1 (some pos1) [] 6000 (1/100) = (sNoTp1, []) :=
  atr_insufficient_skips_trailing cfg0 sNoTp1 pos1 [] 6000 (1/100)
    rfl rfl rfl (by norm_num [cfg0])

/-- Claim C9: with the bad-entry filter enabled, a ticker snapshot whose
bid, ask or last is ≤ 0 short-circuits the filter to a pass — the spread
and impulse gates are skipped and entry proceeds. -/
theorem bad_entry_filter_fail_open (cfg : Config) (bid ask last : ℚ)
    (klines : List Candle) (hen : cfg.BAD_ENTRY_FILTER_ENABLED = true)
    (h : bid ≤ 0 ∨ ask ≤ 0 ∨ last ≤ 0) :
    passes_bad_entry_filters cfg bid ask last klines =
      (true, FilterOutcome.noBidAsk) := by
  unfold passes_bad_entry_filters
  simp [hen, h]

/-- Claim C9, witness: a missing bid (reported as 0) passes the filter. -/
theorem bad_entry_filter_fail_open_witness :
    passes_bad_entry_filters cfg0 0 100 100 [] =
      (true, FilterOutcome.noBidAsk) :=
  bad_entry_filter_fail_open cfg0 0 100 100 [] rfl (Or.inl le_rfl)


/-- Claim C4, counterexample: the ratchet does not hold across all
operations.  Reachable two-pass run: trailing first raises the long stop to
108; on the next pass TP1 is detected and the breakeven block
unconditionally moves the stop down to 100 < 108 — an exchange call that
loosens `lastKnownStop`. -/
theorem be_breaks_ratchet_cex :
    manager_step cfg0 s0 (some pos1) kl0 6000 (1/100) =
      (s1, [GatewayCall.setSL 108]) ∧
    manager_step cfg0 s1 (some pos2) kl0 6060 (1/100) =
      ({ s1 with
          tp1_done := true
          tp1_done_ts := 6060
          be_done := true
          last_sl := 100 },
       [GatewayCall.setSL 100]) ∧
    s1.last_sl = 108 ∧ (100 : ℚ) < 108 := by
  norm_num [manager_step, tp1_detect, be_block, be_price, trail_block,
    trail_candidate, calc_atr_from_klines, trueRanges, round_down_to_step,
    ratTrunc, Rat.floor_def, cfg0, s0, s1, pos1, pos2, kl0]

/-- Claim C4 (amended): the ratchet does hold for the trailing
recomputation itself.  On a pass where the breakeven block cannot fire
(already armed), with `lastKnownStop > 0`: every trailing stop sent for a
long strictly raises the stop, a non-improving long candidate causes no
gateway call, and every trailing stop sent for a short strictly lowers it. -/
theorem trailing_ratchet (cfg : Config) (st : TradeState) (pos : PosInfo)
    (kl : List Candle) (now : ℕ) (tick : ℚ)
    (hact : st.active = true) (hbe : st.be_done = true) (hsl : 0 < st.last_sl) :
    (pos.side = Side.Buy →
      (∀ p, GatewayCall.setSL p ∈ (manager_step cfg st (some pos) kl now tick).2 →
        st.last_sl < p) ∧
      (trail_candidate cfg pos kl tick ≤ st.last_sl →
        (manager_step cfg st (some pos) kl now tick).2 = [])) ∧
    (pos.side = Side.Sell →
      ∀ p, GatewayCall.setSL p ∈ (manager_step cfg st (some pos) kl now tick).2 →
        p < st.last_sl) := by
  have hp := tp1_detect_preserve cfg st pos now
  have hls : (tp1_detect cfg st pos now).last_sl = st.last_sl := hp.2.2.2.1
  have hbe1 : (tp1_detect cfg st pos now).be_done = true := by
    rw [hp.2.1]
    exact hbe
  have hsl1 : 0 < (tp1_detect cfg st pos now).last_sl := by
    rw [hls]
    exact hsl
  unfold manager_step
  simp only [hact, Bool.not_true, Bool.false_eq_true, if_false]
  rw [be_block_skip_done cfg (tp1_detect cfg st pos now) pos tick hbe1]
  dsimp only
  refine ⟨fun hside => ⟨fun p hmem => ?_, fun hno => ?_⟩, fun hside p hmem => ?_⟩
  · have h := trail_block_ratchet_long cfg (tp1_detect cfg st pos now) pos kl
      now tick hsl1 hside p (by simpa using hmem)
    rwa [hls] at h
  · rw [trail_block_no_improve cfg (tp1_detect cfg st pos now) pos kl now tick
      hsl1 hside (by rw [hls]; exact hno)]
    rfl
  · have h := trail_block_ratchet_short cfg (tp1_detect cfg st pos now) pos kl
      now tick hsl1 hside p (by simpa using hmem)
    rwa [hls] at h

/-- Claim C4, witness: with `lastKnownStop = 99.00` on a long, the
candidate `98.80` (mark 100.8, ATR 2) produces no gateway call, and the
applied candidate `99.20` (mark 101.2) strictly improves the stop. -/
theorem trailing_ratchet_witness :
    (∀ p, GatewayCall.setSL p ∈ (manager_step cfg0 s4 (some posHi) kl0 6000 (1/100)).2 →
      s4.last_sl < p) ∧
    (manager_step cfg0 s4 (some posLo) kl0 6000 (1/100)).2 = [] ∧
    GatewayCall.setSL (496/5) ∈ (manager_step cfg0 s4 (some posHi) kl0 6000 (1/100)).2 := by
  refine ⟨((trailing_ratchet cfg0 s4 posHi kl0 6000 (1/100) rfl rfl
      (by norm_num [s4])).1 rfl).1, ?_, ?_⟩
  · exact ((trailing_ratchet cfg0 s4 posLo kl0 6000 (1/100) rfl rfl
      (by norm_num [s4])).1 rfl).2
      (by norm_num [trail_candidate, calc_atr_from_klines, trueRanges,
        round_down_to_step, ratTrunc, Rat.floor_def, cfg0, s4, posLo, kl0])
  · norm_num [manager_step, tp1_detect, be_block, be_price, trail_block,
      trail_candidate, calc_atr_from_klines, trueRanges, round_down_to_step,
      ratTrunc, Rat.floor_def, cfg0, s4, posHi, kl0]

/-- Claim C5, counterexample: on the pass that detects the TP1 fill the
manager issues only the breakeven stop move at
`entry * (1 + BE_OFFSET_PCT/100) = 100`: it cancels no orders, and the
price omits the fee term the spec includes
(`specBePrice = 100.1` with `feePct = 0.1`). -/
theorem tp1_fill_no_cancel_cex :
    (manager_step cfg0 s1 (some pos2) kl0 6060 (1/100)).1.tp1_done = true ∧
    (manager_step cfg0 s1 (some pos2) kl0 6060 (1/100)).2 = [GatewayCall.setSL 100] ∧
    GatewayCall.cancelAllOrders ∉ (manager_step cfg0 s1 (some pos2) kl0 6060 (1/100)).2 ∧
    specBePrice pos2.entry Side.Buy cfg0.BE_OFFSET_PCT cfg0.BYBIT_FEE_PCT (1/100) =
      1001/10 ∧
    (100 : ℚ) ≠ 1001/10 := by
  norm_num [manager_step, tp1_detect, be_block, be_price, specBePrice,
    trail_block, trail_candidate, calc_atr_from_klines, trueRanges,
    round_down_to_step, ratTrunc, Rat.floor_def, cfg0, s0, s1, pos2, kl0]
  simp

/-- Claim C5 (amended): when TP1 has been detected and breakeven is armed,
the first gateway call of the pass moves the stop to the code's breakeven
price `entry * (1 ± BE_OFFSET_PCT/100)` rounded down to tick (no fee term);
no order-cancellation call is ever made. -/
theorem be_move_on_tp1_fill (cfg : Config) (st : TradeState) (pos : PosInfo)
    (kl : List Candle) (now : ℕ) (tick : ℚ)
    (hact : st.active = true) (hen : cfg.BE_ENABLED = true)
    (harm : cfg.BE_ARM_AFTER_TP1 = true) (hdone : st.tp1_done = true)
    (hnb : st.be_done = false) :
    (manager_step cfg st (some pos) kl now tick).2.head? =
      some (GatewayCall.setSL (be_price cfg pos tick)) ∧
    (manager_step cfg st (some pos) kl now tick).1.be_done = true ∧
    GatewayCall.cancelAllOrders ∉ (manager_step cfg st (some pos) kl now tick).2 := by
  have h1 : tp1_detect cfg st pos now = st := tp1_detect_skip_done cfg st pos now hdone
  refine ⟨?_, ?_, manager_step_no_cancel cfg st (some pos) kl now tick⟩
  · unfold manager_step
    simp only [hact, Bool.not_true, Bool.false_eq_true, if_false, h1]
    rw [be_block_fire cfg st pos tick hen harm hdone hnb]
    rfl
  · unfold manager_step
    simp only [hact, Bool.not_true, Bool.false_eq_true, if_false, h1]
    rw [be_block_fire cfg st pos tick hen harm hdone hnb]
    dsimp only
    rw [(trail_block_preserve cfg
      { st with be_done := true, last_sl := be_price cfg pos tick }
      pos kl now tick).2.1]

/-- Claim C5, witness: the breakeven move applied at a concrete detected
state. -/
theorem be_move_on_tp1_fill_witness :
    (manager_step cfg0 sTp1Done (some pos2) kl0 6060 (1/100)).2.head? =
      some (GatewayCall.setSL (be_price cfg0 pos2 (1/100))) ∧
    (manager_step cfg0 sTp1Done (some pos2) kl0 6060 (1/100)).1.be_done = true ∧
    GatewayCall.cancelAllOrders ∉
      (manager_step cfg0 sTp1Done (some pos2) kl0 6060 (1/100)).2 :=
  be_move_on_tp1_fill cfg0 sTp1Done pos2 kl0 6060 (1/100) rfl rfl rfl rfl rfl

/-! ## Webhook-level lemmas and claims -/

lemma webhook_place_part_success (cfg : Config) (side : Side) (usd : ℚ)
    (leverage : ℕ) (price qty_step tick_size tp_pct sl_pct : ℚ) (now : ℕ)
    (closeCalls : List GatewayCall) (prev : Option TradeState)
    (hsucc : 0 < round_down_to_step (usd * (leverage : ℚ) / price) qty_step) :
    ∃ ns tp1calls,
      webhook_place_part cfg side usd leverage price qty_step tick_size
          tp_pct sl_pct now closeCalls prev =
        (WebhookResult.placed, some ns,
          closeCalls ++
            [GatewayCall.setLeverage leverage,
             GatewayCall.placeEntry side
               (round_down_to_step (usd * (leverage : ℚ) / price) qty_step)
               (calc_tp_sl_prices price side tp_pct sl_pct tick_size).1
               (calc_tp_sl_prices price side tp_pct sl_pct tick_size).2] ++
            tp1calls) ∧
      ns.side = side ∧ ns.active = true ∧ ns.tp1_done = false ∧
      ns.be_done = false ∧
      ∀ c ∈ tp1calls, ∃ s q p, c = GatewayCall.placeTP1 s q p := by
  unfold webhook_place_part place_market_order_with_tpsl
  dsimp only
  rw [if_neg (not_le.mpr hsucc)]
  dsimp only
  by_cases hen : cfg.TP1_ENABLED = true
  · rw [if_pos hen]
    by_cases hq : 0 < round_down_to_step
        (round_down_to_step (usd * (leverage : ℚ) / price) qty_step * cfg.TP1_QTY_PCT)
        qty_step
    · rw [if_pos hq]
      exact ⟨_, _, rfl, rfl, rfl, rfl, rfl, by simp⟩
    · rw [if_neg hq]
      exact ⟨_, _, rfl, rfl, rfl, rfl, rfl, by simp⟩
  · rw [if_neg hen]
    exact ⟨_, _, rfl, rfl, rfl, rfl, rfl, by simp⟩

lemma webhook_place_part_no_tp1 (cfg : Config) (side : Side) (usd : ℚ)
    (leverage : ℕ) (price qty_step tick_size tp_pct sl_pct : ℚ) (now : ℕ)
    (closeCalls : List GatewayCall) (prev : Option TradeState)
    (hsucc : 0 < round_down_to_step (usd * (leverage : ℚ) / price) qty_step)
    (hq0 : ¬ 0 < round_down_to_step
        (round_down_to_step (usd * (leverage : ℚ) / price) qty_step * cfg.TP1_QTY_PCT)
        qty_step) :
    ∃ ns,
      (webhook_place_part cfg side usd leverage price qty_step tick_size
          tp_pct sl_pct now closeCalls prev).2.1 = some ns ∧
      ns.tp1_placed = false ∧ ns.tp1_done = false ∧ ns.be_done = false ∧
      (webhook_place_part cfg side usd leverage price qty_step tick_size
          tp_pct sl_pct now closeCalls prev).2.2 =
        closeCalls ++
          [GatewayCall.setLeverage leverage,
           GatewayCall.placeEntry side
             (round_down_to_step (usd * (leverage : ℚ) / price) qty_step)
             (calc_tp_sl_prices price side tp_pct sl_pct tick_size).1
             (calc_tp_sl_prices price side tp_pct sl_pct tick_size).2] := by
  unfold webhook_place_part place_market_order_with_tpsl
  dsimp only
  rw [if_neg (not_le.mpr hsucc)]
  dsimp only
  by_cases hen : cfg.TP1_ENABLED = true
  · rw [if_pos hen, if_neg hq0]
    exact ⟨_, rfl, rfl, rfl, rfl, by simp⟩
  · rw [if_neg hen]
    exact ⟨_, rfl, rfl, rfl, rfl, by simp⟩

/-- Claim C10, counterexample: a position whose state has
`tp1_placed = false` does not stay on its initial stop-loss: the trailing
block still runs and moves the stop (initial 99.65, trailing sets 108). -/
theorem tp1_absent_stop_changes_cex :
    sNoTp1.tp1_placed = false ∧ sNoTp1.last_sl = 1993/20 ∧
    manager_step cfg0 sNoTp1 (some pos1) kl0 6000 (1/100) =
      ({ sNoTp1 with last_sl := 108 }, [GatewayCall.setSL 108]) ∧
    (108 : ℚ) ≠ 1993/20 := by
  norm_num [manager_step, tp1_detect, be_block, be_price, trail_block,
    trail_candidate, calc_atr_from_klines, trueRanges, round_down_to_step,
    ratTrunc, Rat.floor_def, cfg0, s0, sNoTp1, pos1, kl0]

/-- Claim C10 (amended): when the TP1 quantity quantizes to 0, no TP1
order is placed and the registered state has `tp1_placed = false`;
from such a state no manager run ever sets `tp1_done` or arms the
breakeven stop.  (The final clause of the claim fails: ATR trailing can
still move the stop, see the counterexample.) -/
theorem tp1_absent_no_be (cfg : Config) (side : Side) (usd : ℚ) (leverage : ℕ)
    (price qty_step tick_size tp_pct sl_pct : ℚ) (now : ℕ)
    (prev : Option TradeState)
    (hsucc : 0 < round_down_to_step (usd * (leverage : ℚ) / price) qty_step)
    (hq0 : ¬ 0 < round_down_to_step
        (round_down_to_step (usd * (leverage : ℚ) / price) qty_step * cfg.TP1_QTY_PCT)
        qty_step) :
    ∃ ns,
      (webhook_place_part cfg side usd leverage price qty_step tick_size
          tp_pct sl_pct now [] prev).2.1 = some ns ∧
      ns.tp1_placed = false ∧
      (∀ s q p, GatewayCall.placeTP1 s q p ∉
        (webhook_place_part cfg side usd leverage price qty_step tick_size
          tp_pct sl_pct now [] prev).2.2) ∧
      ∀ (obs : List (Option PosInfo × List Candle × ℕ)),
        (manager_run cfg tick_size ns obs).1.tp1_done = false ∧
        (manager_run cfg tick_size ns obs).1.be_done = false := by
  obtain ⟨ns, hns, hpl, hnd, hnb, hcalls⟩ :=
    webhook_place_part_no_tp1 cfg side usd leverage price qty_step tick_size
      tp_pct sl_pct now [] prev hsucc hq0
  refine ⟨ns, hns, hpl, ?_, ?_⟩
  · intro s q p hm
    rw [hcalls] at hm
    simp at hm
  · intro obs
    have h := manager_run_unarmed cfg tick_size ns obs hpl hnd hnb
    exact ⟨h.2.1, h.2.2⟩

/-- Claim C10, witness: with `usd = 3.5`, `leverage = 5`, `price = 100`,
`qtyStep = 0.1`, the sized quantity is `0.1` and the TP1 quantity
`floorToStep(0.05, 0.1)` is 0, so no TP1 order is placed and no run arms
the breakeven. -/
theorem tp1_absent_no_be_witness :
    ∃ ns,
      (webhook_place_part cfg0 Side.Buy (7/2) 5 100 (1/10) (1/100) (11/20) (7/20)
          60 [] none).2.1 = some ns ∧
      ns.tp1_placed = false ∧
      (∀ s q p, GatewayCall.placeTP1 s q p ∉
        (webhook_place_part cfg0 Side.Buy (7/2) 5 100 (1/10) (1/100) (11/20) (7/20)
          60 [] none).2.2) ∧
      ∀ (obs : List (Option PosInfo × List Candle × ℕ)),
        (manager_run cfg0 (1/100) ns obs).1.tp1_done = false ∧
        (manager_run cfg0 (1/100) ns obs).1.be_done = false :=
  tp1_absent_no_be cfg0 Side.Buy (7/2) 5 100 (1/10) (1/100) (11/20) (7/20) 60 none
    (by norm_num [round_down_to_step, ratTrunc, Rat.floor_def])
    (by norm_num [round_down_to_step, ratTrunc, Rat.floor_def, cfg0])

/-- Claim C8, counterexample: a reversal (long position, sell signal, loss
guard not triggered) closes at market and re-enters, but the emitted call
trace contains no order-cancellation call — open orders (e.g. a resting
TP1) are not cancelled, and the old state is overwritten by the new
registration rather than cleared first. -/
theorem reversal_no_cancel_cex :
    webhook_flow cfg0 Side.Sell (7/2) 5 (11/20) (7/20) 0 0 0 []
        (some posRevOk) 1 100 (1/100) (1/100) 60 none =
      (WebhookResult.placed,
       some { active := true, entry_ts := 60, entry_price := 100,
              side := Side.Sell, initial_qty := 17/100, tp1_placed := true,
              tp1_done := false, tp1_done_ts := 0, be_done := false,
              last_sl := 2007/20 },
       [GatewayCall.closeMarket Side.Buy 1,
        GatewayCall.setLeverage 5,
        GatewayCall.placeEntry Side.Sell (17/100) (1989/20) (2007/20),
        GatewayCall.placeTP1 Side.Buy (2/25) (199/2)]) ∧
    GatewayCall.cancelAllOrders ∉
      (webhook_flow cfg0 Side.Sell (7/2) 5 (11/20) (7/20) 0 0 0 []
        (some posRevOk) 1 100 (1/100) (1/100) 60 none).2.2 := by
  have hBS : ¬ Side.Sell = Side.Buy := by simp
  constructor
  · norm_num [webhook_flow, webhook_place_part, place_market_order_with_tpsl,
      passes_cost_filter, passes_bad_entry_filters, calc_tp_sl_prices,
      calc_tp1_price, close_side, calc_atr_from_klines, trueRanges,
      round_down_to_step, ratTrunc, Rat.floor_def, cfg0, posRevOk, hBS]
  · norm_num [webhook_flow, webhook_place_part, place_market_order_with_tpsl,
      passes_cost_filter, passes_bad_entry_filters, calc_tp_sl_prices,
      calc_tp1_price, close_side, calc_atr_from_klines, trueRanges,
      round_down_to_step, ratTrunc, Rat.floor_def, cfg0, posRevOk, hBS]
    simp

/-- Claim C8 (amended): on an opposing signal with reversal enabled, if the
loss guard is configured and unrealized PnL% is below `-maxLossPct` the
whole reversal is skipped (no close, no entry, state untouched); otherwise
the position is closed at market reduce-only first and a fresh entry is
placed, the registered state taking the new side — but no open orders are
cancelled. -/
theorem reversal_behavior (cfg : Config) (side : Side) (usd : ℚ) (leverage : ℕ)
    (tp_pct sl_pct bid ask last : ℚ) (klines : List Candle) (pos : PosInfo)
    (open_size price qty_step tick_size : ℚ) (now : ℕ) (prev : Option TradeState)
    (hcost : passes_cost_filter cfg tp_pct = true)
    (hfil : (passes_bad_entry_filters cfg bid ask last klines).1 = true)
    (hrev : cfg.REVERSE_ENABLED = true)
    (hopp : (pos.side = Side.Buy ∧ side = Side.Sell) ∨
            (pos.side = Side.Sell ∧ side = Side.Buy)) :
    (cfg.REVERSE_ONLY_IF_NOT_IN_LOSS = true →
      pos.pnl_pct < -cfg.REVERSE_MAX_LOSS_PCT →
      webhook_flow cfg side usd leverage tp_pct sl_pct bid ask last klines
          (some pos) open_size price qty_step tick_size now prev =
        (WebhookResult.skipReverseLoss, prev, [])) ∧
    (¬ (cfg.REVERSE_ONLY_IF_NOT_IN_LOSS = true ∧
        pos.pnl_pct < -cfg.REVERSE_MAX_LOSS_PCT) →
      0 < round_down_to_step (usd * (leverage : ℚ) / price) qty_step →
      ∃ ns calls,
        webhook_flow cfg side usd leverage tp_pct sl_pct bid ask last klines
            (some pos) open_size price qty_step tick_size now prev =
          (WebhookResult.placed, some ns,
            GatewayCall.closeMarket pos.side pos.size :: calls) ∧
        ns.side = side ∧
        GatewayCall.cancelAllOrders ∉
          GatewayCall.closeMarket pos.side pos.size :: calls) := by
  constructor
  · intro hguard hloss
    unfold webhook_flow
    rw [hcost, hrev]
    simp only [Bool.not_true, Bool.false_eq_true, if_false, hfil]
    rw [if_pos hopp, if_pos ⟨hguard, hloss⟩]
  · intro hng hsucc
    obtain ⟨ns, tp1calls, heq, hside, -, -, -, htp1⟩ :=
      webhook_place_part_success cfg side usd leverage price qty_step tick_size
        tp_pct sl_pct now [GatewayCall.closeMarket pos.side pos.size] prev hsucc
    refine ⟨ns,
      [GatewayCall.setLeverage leverage,
       GatewayCall.placeEntry side
         (round_down_to_step (usd * (leverage : ℚ) / price) qty_step)
         (calc_tp_sl_prices price side tp_pct sl_pct tick_size).1
         (calc_tp_sl_prices price side tp_pct sl_pct tick_size).2] ++ tp1calls,
      ?_, hside, ?_⟩
    · unfold webhook_flow
      rw [hcost, hrev]
      simp only [Bool.not_true, Bool.false_eq_true, if_false, hfil]
      rw [if_pos hopp, if_neg hng, heq]
      simp
    · intro hm
      simp only [List.mem_cons, List.mem_append, List.not_mem_nil,
        reduceCtorEq, false_or, or_false] at hm
      obtain ⟨s, q, p, hc⟩ := htp1 _ hm
      exact GatewayCall.noConfusion hc

/-- Claim C8, witness: the loss-guard skip at `pnl_pct = -0.10`,
`maxLossPct = 0.05`, and the close-then-reenter trace (with no cancel) at
`pnl_pct = 0`. -/
theorem reversal_behavior_witness :
    webhook_flow cfg0 Side.Sell (7/2) 5 (11/20) (7/20) 0 0 0 []
        (some posRevLoss) 1 100 (1/100) (1/100) 60 none =
      (WebhookResult.skipReverseLoss, none, []) ∧
    ∃ ns calls,
      webhook_flow cfg0 Side.Sell (7/2) 5 (11/20) (7/20) 0 0 0 []
          (some posRevOk) 1 100 (1/100) (1/100) 60 none =
        (WebhookResult.placed, some ns,
          GatewayCall.closeMarket posRevOk.side posRevOk.size :: calls) ∧
      ns.side = Side.Sell ∧
      GatewayCall.cancelAllOrders ∉
        GatewayCall.closeMarket posRevOk.side posRevOk.size :: calls := by
  constructor
  · exact (reversal_behavior cfg0 Side.Sell (7/2) 5 (11/20) (7/20) 0 0 0 []
      posRevLoss 1 100 (1/100) (1/100) 60 none
      (by norm_num [passes_cost_filter, cfg0])
      (by norm_num [passes_bad_entry_filters, cfg0]) rfl
      (Or.inl ⟨rfl, rfl⟩)).1 rfl (by norm_num [posRevLoss, cfg0])
  · exact (reversal_behavior cfg0 Side.Sell (7/2) 5 (11/20) (7/20) 0 0 0 []
      posRevOk 1 100 (1/100) (1/100) 60 none
      (by norm_num [passes_cost_filter, cfg0])
      (by norm_num [passes_bad_entry_filters, cfg0]) rfl
      (Or.inl ⟨rfl, rfl⟩)).2
      (by norm_num [posRevOk, cfg0])
      (by norm_num [round_down_to_step, ratTrunc, Rat.floor_def])
